import Mathlib

/-!
Verification development for the contact-extraction pipeline
(`telegram_server.py`, `whatsapp_saver.py`).

The Python source is shallowly embedded: pure helpers become Lean
functions, the SQLite `contacts` table becomes a `List Row` with the
`UNIQUE(email)` constraint modelled as an insert-failure condition, DOM
interaction is abstracted into explicit batch inputs, and the regular
expressions of the source are embedded by a small backtracking matcher
whose tokens are exactly the character-class quantifiers those patterns
use.  Character classes `\d`, `\s` and the literals are modelled over
the ASCII characters the program manipulates.
-/

set_option maxRecDepth 8192

namespace WhatsAppExtract

/-! ## Regular-expression embedding

Every regex used by the source (`extract_email_from_text`,
`extract_phone_from_text`, the `re.sub` class in `clean_phone_number`)
is a sequence of independent character-class tokens with greedy
counted repetition.  `matchSeq` implements Python `re` semantics for
such a sequence: each greedy quantifier prefers the longest count and
backtracks, earlier tokens taking priority; `searchFrom` implements
the leftmost-match rule of `re.search`. -/

/-- ASCII whitespace, the characters that the Python `\s` class (and
`str.strip`) recognises on the ASCII inputs this program handles. -/
def isPySpace (c : Char) : Bool :=
  c = ' ' || c = '\t' || c = '\n' || c = '\r' || c = '\x0b' || c = '\x0c'

/-- ASCII digit, the Python `\d` class on ASCII input. -/
def isDigitC (c : Char) : Bool :=
  c.isDigit

/-- The class `[\s\-]` of the phone patterns. -/
def isSepC (c : Char) : Bool :=
  isPySpace c || c = '-'

/-- ASCII letter, the class `[a-zA-Z]`. -/
def isAlphaC (c : Char) : Bool :=
  ('a' ≤ c && c ≤ 'z') || ('A' ≤ c && c ≤ 'Z')

/-- The local-part class `[a-zA-Z0-9._%+-]` of the email pattern. -/
def isEmailLocalC (c : Char) : Bool :=
  isAlphaC c || isDigitC c || c = '.' || c = '_' || c = '%' || c = '+' || c = '-'

/-- The domain class `[a-zA-Z0-9.-]` of the email pattern. -/
def isEmailDomC (c : Char) : Bool :=
  isAlphaC c || isDigitC c || c = '.' || c = '-'

/-- One regex token: a character class repeated greedily between `lo`
and `hi` times (`hi = none` means unbounded, as in `+` or `{2,}`). -/
structure RTok where
  cls : Char → Bool
  lo : Nat
  hi : Option Nat

/-- Literal character token. -/
def tokChar (c : Char) : RTok :=
  ⟨fun x => x = c, 1, some 1⟩

/-- Class token with repetition bounds. -/
def tokCls (p : Char → Bool) (lo : Nat) (hi : Option Nat) : RTok :=
  ⟨p, lo, hi⟩

/-- Greedy backtracking over the count of the current token: try `k`
first, then smaller counts down to `lo`. -/
def tryFrom (f : Nat → Option (List Char)) (lo : Nat) : Nat → Option (List Char)
  | 0 => if 0 < lo then none else f 0
  | k + 1 =>
    if k + 1 < lo then none
    else
      match f (k + 1) with
      | some r => some r
      | none => tryFrom f lo k

/-- Match a token sequence at the start of `s`, returning the consumed
characters.  Earlier tokens backtrack with priority, each preferring
the greedy (longest) count — Python `re` semantics for these patterns. -/
def matchSeq (toks : List RTok) (s : List Char) : Option (List Char) :=
  match toks with
  | [] => some []
  | t :: ts =>
    let avail := (s.takeWhile t.cls).length
    let hi :=
      match t.hi with
      | none => avail
      | some h => min h avail
    tryFrom (fun k => (matchSeq ts (s.drop k)).map (fun r => s.take k ++ r)) t.lo hi

/-- Leftmost search: try each start position left to right, as
`re.search` does. -/
def searchFrom (toks : List RTok) : List Char → Option (List Char)
  | [] => matchSeq toks []
  | s@(_ :: rest) =>
    match matchSeq toks s with
    | some r => some r
    | none => searchFrom toks rest

/-- `re.search(pattern, text)` followed by `.group()`. -/
def reSearch (toks : List RTok) (text : String) : Option String :=
  (searchFrom toks text.data).map String.mk

/-- The pattern `\+\d{1,4}[\s\-]?\d{6,14}` (international format). -/
def patInternational : List RTok :=
  [tokChar '+', tokCls isDigitC 1 (some 4), tokCls isSepC 0 (some 1),
    tokCls isDigitC 6 (some 14)]

/-- The pattern `\(\d{3}\)\s?\d{3}[\s\-]?\d{4}` (US `(xxx) xxx-xxxx`). -/
def patParen : List RTok :=
  [tokChar '(', tokCls isDigitC 3 (some 3), tokChar ')', tokCls isPySpace 0 (some 1),
    tokCls isDigitC 3 (some 3), tokCls isSepC 0 (some 1), tokCls isDigitC 4 (some 4)]

/-- The pattern `\d{3}[\s\-]?\d{3}[\s\-]?\d{4}` (US `xxx-xxx-xxxx`). -/
def patDashed : List RTok :=
  [tokCls isDigitC 3 (some 3), tokCls isSepC 0 (some 1), tokCls isDigitC 3 (some 3),
    tokCls isSepC 0 (some 1), tokCls isDigitC 4 (some 4)]

/-- The pattern `\d{10,15}` (bare digit run). -/
def patBare : List RTok :=
  [tokCls isDigitC 10 (some 15)]

/-- The ordered pattern list of `extract_phone_from_text`. -/
def phonePatterns : List (List RTok) :=
  [patInternational, patParen, patDashed, patBare]

/-- First pattern in the list whose search succeeds wins, as the
`for pattern in patterns` loop of the source. -/
def searchList : List (List RTok) → String → Option String
  | [], _ => none
  | p :: ps, text =>
    match reSearch p text with
    | some m => some m
    | none => searchList ps text

/-- `telegram_server.extract_phone_from_text`. -/
def extract_phone_from_text (text : String) : Option String :=
  searchList phonePatterns text

/-- The email pattern `[a-zA-Z0-9._%+-]+@[a-zA-Z0-9.-]+\.[a-zA-Z]{2,}`. -/
def patEmail : List RTok :=
  [tokCls isEmailLocalC 1 none, tokChar '@', tokCls isEmailDomC 1 none,
    tokChar '.', tokCls isAlphaC 2 none]

/-- `telegram_server.extract_email_from_text`. -/
def extract_email_from_text (text : String) : Option String :=
  reSearch patEmail text

/-! ## Phone normalization -/

/-- Python `str.strip()` on the character list. -/
def pyStrip (l : List Char) : List Char :=
  ((l.dropWhile isPySpace).reverse.dropWhile isPySpace).reverse

/-- The class kept by `re.sub(r"[^\d\s\-\(\)\+]", "", phone)`: digits,
whitespace, hyphen, parentheses, and plus — a plus anywhere, the class
is not anchored to the front. -/
def keepPhoneChar (c : Char) : Bool :=
  isDigitC c || isPySpace c || c = '-' || c = '(' || c = ')' || c = '+'

/-- `telegram_server.clean_phone_number`: `None`-or-empty guard, strip,
keep only the class characters, then return the stripped residue, or
`None` when the residue is empty (falsy). -/
def clean_phone_number (phoneText : String) : Option String :=
  if phoneText = "" then none
  else
    let p1 := pyStrip phoneText.data
    let p2 := p1.filter keepPhoneChar
    if p2 = [] then none else some (String.mk (pyStrip p2))

/-- `whatsapp_saver.clean_phone_number`: same pipeline but it first
deletes every `~` and every `+` via `str.replace`, and has no
empty-input guard. -/
def clean_phone_number_wa (phoneText : String) : Option String :=
  let p0 := pyStrip phoneText.data
  let p1 := (p0.filter (fun c => c ≠ '~')).filter (fun c => c ≠ '+')
  let p2 := p1.filter keepPhoneChar
  if p2 = [] then none else some (String.mk (pyStrip p2))

/-! ## Contact Store (`telegram_server.py`)

The SQLite table `contacts(id, phone, email, is_verified, created_at,
UNIQUE(email))` is modelled as a list of rows in insertion order; `id`
and `created_at` play no role in any claim and are omitted.  The
`UNIQUE(email)` constraint appears as the insert-failure condition: an
`INSERT` raises `IntegrityError` exactly when some existing row already
carries the email.  The HTTP verification call is modelled by passing
the response the service would return as an explicit argument, and the
result records whether the call was made at all. -/

structure Row where
  phone : String
  email : String
  verified : Bool
deriving DecidableEq

abbrev DB := List Row

/-- Outcome of the verification request as seen by `save_contact`:
a network failure, or an HTTP response with a status code and either a
parsed JSON object (a string-to-string map) or malformed JSON. -/
inductive VerifyResp where
  | netError
  | httpResp (status : Nat) (json : Option (List (String × String)))
deriving DecidableEq

/-- Python `dict.get` on the modelled JSON object. -/
def jsonGet (m : List (String × String)) (k : String) : Option String :=
  (m.find? (fun kv => kv.1 == k)).map Prod.snd

/-- The distinct exit paths of `save_contact`.  `saved` is Python
`return True`; `missingField`, `invalidPhone` and `alreadyExists` are
the `return False` paths; `insertError` is the caught
`IntegrityError` of the `INSERT`; `serviceError` covers the non-200 /
request-exception / malformed-JSON paths (implicit `return None`). -/
inductive SaveOutcome where
  | saved
  | missingField
  | invalidPhone
  | alreadyExists
  | insertError
  | serviceError
deriving DecidableEq

structure SaveResult where
  db : DB
  outcome : SaveOutcome
  calledService : Bool
deriving DecidableEq

/-- Row effect of the committed
`UPDATE contacts SET is_verified = 0 WHERE phone = ?`. -/
def demoteRow (phone : String) (r : Row) : Row :=
  if r.phone = phone then ⟨r.phone, r.email, false⟩ else r

/-- The demotion `UPDATE` run on the replacement path. -/
def demoteByPhone (phone : String) (db : DB) : DB :=
  db.map (demoteRow phone)

/-- `telegram_server.save_contact`.  Guards in source order: empty
phone/email, `len(phone) < 12`, then the duplicate pre-check
`SELECT COUNT(*) ... WHERE email = ? AND is_verified = 1`.  Only then
is the service called.  On a 200 response with parseable JSON, a
`"true"` value under the key `is_replaced` triggers the committed
demotion of every row with the same phone; then the `INSERT` of the
new verified row either succeeds or violates `UNIQUE(email)` — in the
latter case the demotion stays committed. -/
def save_contact (db : DB) (phone email : String) (resp : VerifyResp) : SaveResult :=
  if phone = "" ∨ email = "" then ⟨db, .missingField, false⟩
  else if phone.length < 12 then ⟨db, .invalidPhone, false⟩
  else if db.any (fun r => r.email == email && r.verified) then ⟨db, .alreadyExists, false⟩
  else
    match resp with
    | .netError => ⟨db, .serviceError, true⟩
    | .httpResp status json =>
      if status = 200 then
        match json with
        | none => ⟨db, .serviceError, true⟩
        | some m =>
          let db1 :=
            if jsonGet m "is_replaced" = some "true" then demoteByPhone phone db else db
          if db1.any (fun r => r.email == email) then ⟨db1, .insertError, true⟩
          else ⟨db1 ++ [⟨phone, email, true⟩], .saved, true⟩
      else ⟨db, .serviceError, true⟩

/-- `telegram_server.update_verification_status`: committed
`UPDATE contacts SET is_verified = ? WHERE email = ?`. -/
def setVerifiedRow (email : String) (v : Bool) (r : Row) : Row :=
  if r.email = email then ⟨r.phone, r.email, v⟩ else r

def update_verification_status (db : DB) (email : String) (v : Bool) : DB :=
  db.map (setVerifiedRow email v)

/-- A Contact Store operation, for whole-trace statements. -/
inductive StoreOp where
  | save (phone email : String) (resp : VerifyResp)
  | updateStatus (email : String) (verified : Bool)

/-- State effect of one operation (return values discarded). -/
def applyOp (db : DB) (op : StoreOp) : DB :=
  match op with
  | .save p e resp => (save_contact db p e resp).db
  | .updateStatus e v => update_verification_status db e v

/-- Run a sequence of Contact Store operations from the empty table. -/
def runOps (ops : List StoreOp) : DB :=
  ops.foldl applyOp []

/-- Run a sequence of saves only, from the empty table. -/
def runSaves (ops : List (String × String × VerifyResp)) : DB :=
  ops.foldl (fun db op => (save_contact db op.1 op.2.1 op.2.2).db) []

/-! ## Message scanning (`find_email_and_phone_in_messages`) -/

inductive Direction where
  | dirIn
  | dirOut
deriving DecidableEq

/-- One extracted message: `body`, `direction`, `position`
(1 = most recent). -/
structure Msg where
  body : String
  direction : Direction
  position : Nat
deriving DecidableEq

/-- The `found_in_message` field: `body[:100] + "..."` when the body
exceeds 100 characters. -/
def previewOf (body : String) : String :=
  if body.length > 100 then body.take 100 ++ "..." else body

/-- A recorded email or phone hit with its provenance fields. -/
structure FoundId where
  value : String
  found_in_message : String
  message_position : Nat
  direction : Direction
deriving DecidableEq

def mkFound (value : String) (m : Msg) : FoundId :=
  ⟨value, previewOf m.body, m.position, m.direction⟩

/-- The `if not email_result` update: keep a found email, otherwise
try the current message. -/
def updEmail (e : Option FoundId) (m : Msg) : Option FoundId :=
  match e with
  | some x => some x
  | none => (extract_email_from_text m.body).map (fun v => mkFound v m)

/-- The `if not phone_result` update. -/
def updPhone (p : Option FoundId) (m : Msg) : Option FoundId :=
  match p with
  | some x => some x
  | none => (extract_phone_from_text m.body).map (fun v => mkFound v m)

/-- The loop body of `find_email_and_phone_in_messages`: update each
slot only while it is unfilled, and break once both are filled. -/
def findLoop : List Msg → Option FoundId → Option FoundId → Option FoundId × Option FoundId
  | [], e, p => (e, p)
  | m :: rest, e, p =>
    match updEmail e m, updPhone p m with
    | some a, some b => (some a, some b)
    | e1, p1 => findLoop rest e1 p1

/-- `telegram_server.find_email_and_phone_in_messages`. -/
def find_email_and_phone_in_messages (msgs : List Msg) :
    Option FoundId × Option FoundId :=
  findLoop msgs none none

/-- Modelled from the spec: the full scan with no early stop —
`find_email_and_phone_in_messages` minus the `break`, used as the
reference side of the refinement claim. -/
def findLoopNaive : List Msg → Option FoundId → Option FoundId →
    Option FoundId × Option FoundId
  | [], e, p => (e, p)
  | m :: rest, e, p => findLoopNaive rest (updEmail e m) (updPhone p m)

/-- Modelled from the spec: full-scan variant of the search. -/
def findNaive (msgs : List Msg) : Option FoundId × Option FoundId :=
  findLoopNaive msgs none none

/-! ## The scan loop (`process_chats_with_scrolling`)

DOM access is abstracted: the chats visible in iteration `i` arrive as
`batches i`, each already reduced to the data the loop actually
consumes — the extracted `chat_name` and whether opening the chat
yielded at least one message (`counted`, the condition under which the
source increments `total_processed`).  The loop skeleton — the
`while no_new_chats_count < 3` guard, the `total_processed >= 20`
checks, the `processed_chats` dedup (including the `!= "Unknown"`
filter), and the hard `batch_count < 100` cap — is translated
directly.  The structural-recursion fuel is the termination
measure of the loop; when it reaches zero the state already satisfies
`noNew ≥ 3`, so returning the state coincides with the `while` guard
failing, and the fuelled function equals the source loop. -/

structure ChatItem where
  name : String
  counted : Bool
deriving DecidableEq

structure ScanState where
  processed : List String
  total : Nat
  batch : Nat
  noNew : Nat
  opened : List String
deriving DecidableEq

/-- The dedup pass over the visible chats: collect items whose name is
not `"Unknown"` and not yet in the processed set, adding each collected
name to the set immediately (so an in-batch duplicate is skipped too).
Returns the collected items and the grown set. -/
def collectNew : List ChatItem → List String → List ChatItem × List String
  | [], seen => ([], seen)
  | it :: rest, seen =>
    if it.name ≠ "Unknown" && !(seen.contains it.name) then
      (it :: (collectNew rest (seen ++ [it.name])).1,
        (collectNew rest (seen ++ [it.name])).2)
    else collectNew rest seen

/-- The inner per-chat loop: record the attempt, increment the
processed count only when messages were retrieved (`counted`), and
break out once the count reaches 20. -/
def processItems : List ChatItem → Nat → List String → Nat × List String
  | [], total, opened => (total, opened)
  | it :: rest, total, opened =>
    if it.counted then
      if 20 ≤ total + 1 then (total + 1, opened ++ [it.name])
      else processItems rest (total + 1) (opened ++ [it.name])
    else processItems rest total (opened ++ [it.name])

/-- Termination measure of the scan loop: every iteration increments
`batch`, the two `continue` paths increment `noNew` without resetting
it, and the full path recurses only while `batch < 100`. -/
def loopMeasure (st : ScanState) : Nat :=
  (3 - st.noNew) + 3 * (100 - st.batch)

/-- One-iteration-per-fuel-unit unfolding of the scan loop of
`process_chats_with_scrolling`. -/
def loopGo (batches : Nat → List ChatItem) : Nat → ScanState → ScanState
  | 0, st => st
  | fuel + 1, st =>
    if 3 ≤ st.noNew then st
    else if 20 ≤ st.total then st
    else if batches st.batch = [] then
      loopGo batches fuel ⟨st.processed, st.total, st.batch + 1, st.noNew + 1, st.opened⟩
    else if (collectNew (batches st.batch) st.processed).1 = [] then
      loopGo batches fuel
        ⟨(collectNew (batches st.batch) st.processed).2, st.total, st.batch + 1,
          st.noNew + 1, st.opened⟩
    else if st.batch + 1 < 100 then
      loopGo batches fuel
        ⟨(collectNew (batches st.batch) st.processed).2,
          (processItems (collectNew (batches st.batch) st.processed).1 st.total
            st.opened).1,
          st.batch + 1, 0,
          (processItems (collectNew (batches st.batch) st.processed).1 st.total
            st.opened).2⟩
    else
      ⟨(collectNew (batches st.batch) st.processed).2,
        (processItems (collectNew (batches st.batch) st.processed).1 st.total
          st.opened).1,
        st.batch + 1, 0,
        (processItems (collectNew (batches st.batch) st.processed).1 st.total
          st.opened).2⟩

/-- The scan loop, started with enough fuel for its own termination
measure. -/
def loopRun (batches : Nat → List ChatItem) (st : ScanState) : ScanState :=
  loopGo batches (loopMeasure st) st

/-- The state at entry to `process_chats_with_scrolling`. -/
def initScan : ScanState :=
  ⟨[], 0, 0, 0, []⟩

/-- Adversarial batch input for the scan loop: every batch shows one
never-seen chat whose processing yields no messages. -/
def cexBatches (n : Nat) : List ChatItem :=
  [⟨Nat.repr n, false⟩]


/-! ## Lemmas and claim theorems -/

theorem findLoopNaive_saturated (msgs : List Msg) (a b : FoundId) :
    findLoopNaive msgs (some a) (some b) = (some a, some b) := by
  induction msgs with
  | nil => rfl
  | cons m rest ih => simpa [findLoopNaive, updEmail, updPhone] using ih

theorem findLoop_eq_findLoopNaive (msgs : List Msg) :
    ∀ e p, findLoop msgs e p = findLoopNaive msgs e p := by
  induction msgs with
  | nil => intro e p; rfl
  | cons m rest ih =>
    intro e p
    cases hE : updEmail e m with
    | some a =>
      cases hP : updPhone p m with
      | some b => simp [findLoop, findLoopNaive, hE, hP, findLoopNaive_saturated]
      | none => simp [findLoop, findLoopNaive, hE, hP, ih]
    | none =>
      cases hP : updPhone p m <;> simp [findLoop, findLoopNaive, hE, hP, ih]

/-- C5 (corrected): `extract_phone_from_text` does try its four
patterns in the fixed order international, parenthesized, dashed,
bare, and returns the search result of the first pattern that matches
anywhere; but on `"call +1 415-555-0198 now"` the match comes from the
dashed-local pattern, because the international pattern does not match
this text at all. -/
theorem extract_phone_pattern_order :
    (∀ text,
      extract_phone_from_text text =
        match reSearch patInternational text with
        | some m => some m
        | none =>
          match reSearch patParen text with
          | some m => some m
          | none =>
            match reSearch patDashed text with
            | some m => some m
            | none => reSearch patBare text) ∧
    extract_phone_from_text "call +1 415-555-0198 now" = some "415-555-0198" := by
  constructor
  · intro text
    simp only [extract_phone_from_text, phonePatterns, searchList]
    cases reSearch patInternational text <;> cases reSearch patParen text <;>
      cases reSearch patDashed text <;> cases reSearch patBare text <;> rfl
  · decide

/-- C5 counterexample: on the text of the claim the international
pattern has no match anywhere, and the returned match is produced by
the later dashed-local pattern — refuting "returns a match of the
international pattern, not of a later fallback pattern". -/
theorem extract_phone_intl_example_refuted :
    reSearch patInternational "call +1 415-555-0198 now" = none ∧
    extract_phone_from_text "call +1 415-555-0198 now" = some "415-555-0198" ∧
    reSearch patDashed "call +1 415-555-0198 now" = some "415-555-0198" := by
  refine ⟨by decide, by decide, by decide⟩

/-- C6: the early-stopping scan of `find_email_and_phone_in_messages`
returns exactly what the full no-early-stop scan returns on every
message list: the first email hit and the first phone hit in list
order. -/
theorem find_email_and_phone_early_stop_correct (msgs : List Msg) :
    find_email_and_phone_in_messages msgs = findNaive msgs :=
  findLoop_eq_findLoopNaive msgs none none


/-! ### Contact Store lemmas -/

/-- Demotion never changes the email of a row. -/
theorem demoteRow_email (p : String) (r : Row) : (demoteRow p r).email = r.email := by
  unfold demoteRow
  split <;> rfl

/-- Status updates never change the email of a row. -/
theorem setVerifiedRow_email (e : String) (v : Bool) (r : Row) :
    (setVerifiedRow e v r).email = r.email := by
  unfold setVerifiedRow
  split <;> rfl

/-- Complete branch analysis of `save_contact`: either the table is
returned untouched with a non-`saved` outcome, or only the committed
demotion survives an insert failure, or the verified row is appended
(after an optional demotion) with the guard facts that made the insert
reachable. -/
theorem save_contact_shape (db : DB) (p e : String) (resp : VerifyResp) :
    ((save_contact db p e resp).db = db ∧ (save_contact db p e resp).outcome ≠ .saved) ∨
    ((save_contact db p e resp).db = demoteByPhone p db ∧
      (save_contact db p e resp).outcome = .insertError) ∨
    (∃ db1, (db1 = db ∨ db1 = demoteByPhone p db) ∧
      save_contact db p e resp = ⟨db1 ++ [⟨p, e, true⟩], .saved, true⟩ ∧
      ¬(p = "" ∨ e = "") ∧ ¬p.length < 12 ∧
      db1.any (fun r => r.email == e) = false) := by
  by_cases h1 : p = "" ∨ e = ""
  · left
    simp [save_contact, h1]
  by_cases h2 : p.length < 12
  · left
    simp [save_contact, h1, h2]
  cases h3 : db.any (fun r => r.email == e && r.verified) with
  | true =>
    left
    simp [save_contact, h1, h2, h3]
  | false =>
    cases resp with
    | netError =>
      left
      simp [save_contact, h1, h2, h3]
    | httpResp status json =>
      by_cases h4 : status = 200
      · cases json with
        | none =>
          left
          simp [save_contact, h1, h2, h3, h4]
        | some m =>
          by_cases h5 : jsonGet m "is_replaced" = some "true"
          · cases h6 : (demoteByPhone p db).any (fun r => r.email == e) with
            | true =>
              right; left
              constructor <;> simp [save_contact, h1, h2, h3, h4, h5, h6]
            | false =>
              right; right
              exact ⟨demoteByPhone p db, Or.inr rfl,
                by simp [save_contact, h1, h2, h3, h4, h5, h6], h1, h2, h6⟩
          · cases h6 : db.any (fun r => r.email == e) with
            | true =>
              left
              simp [save_contact, h1, h2, h3, h4, h5, h6]
            | false =>
              right; right
              exact ⟨db, Or.inl rfl,
                by simp [save_contact, h1, h2, h3, h4, h5, h6], h1, h2, h6⟩
      · left
        simp [save_contact, h1, h2, h3, h4]

/-- The email-distinctness invariant of the table: rows of a demotion keep
their emails pairwise-distinct. -/
def emailsDistinct (db : DB) : Prop :=
  db.Pairwise (fun a b => a.email ≠ b.email)

theorem emailsDistinct_map (f : Row → Row) (hf : ∀ r, (f r).email = r.email)
    (db : DB) (h : emailsDistinct db) : emailsDistinct (db.map f) := by
  unfold emailsDistinct at h ⊢
  rw [List.pairwise_map]
  exact h.imp fun hab => by
    rw [hf, hf]
    exact hab

theorem any_email_eq_false_iff (db : DB) (e : String) :
    db.any (fun r => r.email == e) = false ↔ ∀ r ∈ db, r.email ≠ e := by
  simp

theorem emailsDistinct_append_fresh (db : DB) (row : Row)
    (h : emailsDistinct db) (hf : ∀ r ∈ db, r.email ≠ row.email) :
    emailsDistinct (db ++ [row]) := by
  unfold emailsDistinct at h ⊢
  rw [List.pairwise_append]
  refine ⟨h, List.pairwise_singleton _ _, ?_⟩
  intro a ha b hb
  rw [List.mem_singleton] at hb
  subst hb
  exact hf a ha

theorem emailsDistinct_applyOp (db : DB) (op : StoreOp) (h : emailsDistinct db) :
    emailsDistinct (applyOp db op) := by
  cases op with
  | updateStatus e v =>
    exact emailsDistinct_map _ (setVerifiedRow_email e v) db h
  | save p e resp =>
    show emailsDistinct (save_contact db p e resp).db
    have hdem : emailsDistinct (demoteByPhone p db) :=
      emailsDistinct_map _ (demoteRow_email p) db h
    rcases save_contact_shape db p e resp with ⟨hdb, _⟩ | ⟨hdb, _⟩ |
      ⟨db1, hdb1, heq, _, _, hfresh⟩
    · rw [hdb]; exact h
    · rw [hdb]; exact hdem
    · have hdb1d : emailsDistinct db1 := by
        rcases hdb1 with h1 | h1 <;> rw [h1]
        · exact h
        · exact hdem
      have : (save_contact db p e resp).db = db1 ++ [⟨p, e, true⟩] := by rw [heq]
      rw [this]
      refine emailsDistinct_append_fresh db1 _ hdb1d ?_
      exact (any_email_eq_false_iff db1 e).mp hfresh

/-- C2: starting from the empty table, no sequence of Contact Store
operations (saves with arbitrary verification responses, verification
status updates) ever produces two rows that share an email and are
both verified; indeed all emails stay pairwise distinct. -/
theorem runOps_no_two_verified_same_email (ops : List StoreOp) :
    (runOps ops).Pairwise
      (fun a b => ¬(a.email = b.email ∧ a.verified = true ∧ b.verified = true)) := by
  have hd : emailsDistinct (runOps ops) := by
    unfold runOps
    have main : ∀ (l : List StoreOp) (db : DB),
        emailsDistinct db → emailsDistinct (l.foldl applyOp db) := by
      intro l
      induction l with
      | nil => intro db h; exact h
      | cons op rest ih => intro db h; exact ih _ (emailsDistinct_applyOp db op h)
    exact main ops [] List.Pairwise.nil
  exact hd.imp fun hab hc => hab hc.1

/-- C1 (corrected): when the outcome is not `saved` no row is ever
inserted (the row count is preserved), but the table is not always
untouched: on the path where a 200 response carried
`is_replaced = "true"` and the subsequent `INSERT` failed, the
separately committed demotion (`verified := false` on every row with
the saved phone) survives. -/
theorem save_not_saved_table_change (db : DB) (p e : String) (resp : VerifyResp)
    (h : (save_contact db p e resp).outcome ≠ .saved) :
    ((save_contact db p e resp).db = db ∨
      ((save_contact db p e resp).db = demoteByPhone p db ∧
        (save_contact db p e resp).outcome = .insertError)) ∧
    (save_contact db p e resp).db.length = db.length := by
  rcases save_contact_shape db p e resp with ⟨hdb, _⟩ | ⟨hdb, ho⟩ | ⟨db1, _, heq, _⟩
  · exact ⟨Or.inl hdb, by rw [hdb]⟩
  · refine ⟨Or.inr ⟨hdb, ho⟩, ?_⟩
    rw [hdb]
    exact List.length_map db _
  · rw [heq] at h
    exact absurd rfl h

/-- C1 witness: for the concrete reachable table and failing call of
the counterexample, the only state change is the committed demotion. -/
theorem save_not_saved_table_change_witness :
    ((save_contact [⟨"123456789012", "a@x.co", false⟩, ⟨"123456789012", "b@x.co", true⟩]
        "123456789012" "a@x.co" (.httpResp 200 (some [("is_replaced", "true")]))).db =
      [⟨"123456789012", "a@x.co", false⟩, ⟨"123456789012", "b@x.co", true⟩] ∨
      ((save_contact [⟨"123456789012", "a@x.co", false⟩, ⟨"123456789012", "b@x.co", true⟩]
          "123456789012" "a@x.co" (.httpResp 200 (some [("is_replaced", "true")]))).db =
        demoteByPhone "123456789012"
          [⟨"123456789012", "a@x.co", false⟩, ⟨"123456789012", "b@x.co", true⟩] ∧
        (save_contact [⟨"123456789012", "a@x.co", false⟩, ⟨"123456789012", "b@x.co", true⟩]
            "123456789012" "a@x.co"
            (.httpResp 200 (some [("is_replaced", "true")]))).outcome =
          SaveOutcome.insertError)) ∧
    (save_contact [⟨"123456789012", "a@x.co", false⟩, ⟨"123456789012", "b@x.co", true⟩]
        "123456789012" "a@x.co"
        (.httpResp 200 (some [("is_replaced", "true")]))).db.length =
      ([⟨"123456789012", "a@x.co", false⟩, ⟨"123456789012", "b@x.co", true⟩] : DB).length :=
  save_not_saved_table_change _ _ _ _ (by decide)

/-- C1 counterexample: a table reachable from empty by two saves, on
which a third save fails (`insertError`, a `UNIQUE(email)` violation
raised after the replacement demotion was committed) yet leaves the
table changed — the previously verified row for `b@x.co` is now
unverified. -/
theorem save_atomicity_counterexample :
    runSaves [("123456789012", "a@x.co", .httpResp 200 (some [])),
        ("123456789012", "b@x.co", .httpResp 200 (some [("is_replaced", "true")]))] =
      [⟨"123456789012", "a@x.co", false⟩, ⟨"123456789012", "b@x.co", true⟩] ∧
    (save_contact [⟨"123456789012", "a@x.co", false⟩, ⟨"123456789012", "b@x.co", true⟩]
        "123456789012" "a@x.co" (.httpResp 200 (some [("is_replaced", "true")]))).outcome ≠
      SaveOutcome.saved ∧
    (save_contact [⟨"123456789012", "a@x.co", false⟩, ⟨"123456789012", "b@x.co", true⟩]
        "123456789012" "a@x.co" (.httpResp 200 (some [("is_replaced", "true")]))).db ≠
      [⟨"123456789012", "a@x.co", false⟩, ⟨"123456789012", "b@x.co", true⟩] := by
  refine ⟨by decide, by decide, by decide⟩


/-- C3: after a save that returned `saved`, a second save of the same
phone/email pair hits the verified-duplicate pre-check: it returns
`alreadyExists`, never reaches the verification service
(`calledService = false`), and leaves the table exactly as it was. -/
theorem save_idempotent_on_saved (db : DB) (p e : String) (r1 r2 : VerifyResp)
    (h : (save_contact db p e r1).outcome = .saved) :
    save_contact (save_contact db p e r1).db p e r2 =
      ⟨(save_contact db p e r1).db, .alreadyExists, false⟩ := by
  rcases save_contact_shape db p e r1 with ⟨_, ho⟩ | ⟨_, ho⟩ | ⟨db1, _, heq, hne, hlen, _⟩
  · exact absurd h ho
  · rw [ho] at h
    exact absurd h (by simp)
  · rw [heq]
    have hany : (db1 ++ [(⟨p, e, true⟩ : Row)]).any
        (fun r => r.email == e && r.verified) = true := by
      simp
    simp [save_contact, hne, hlen, hany]

/-- C3 witness: concrete successful save, then a retry that is refused
without consulting the service. -/
theorem save_idempotent_witness :
    save_contact (save_contact [] "123456789012" "a@x.co" (.httpResp 200 (some []))).db
        "123456789012" "a@x.co" VerifyResp.netError =
      ⟨(save_contact [] "123456789012" "a@x.co" (.httpResp 200 (some []))).db,
        SaveOutcome.alreadyExists, false⟩ :=
  save_idempotent_on_saved [] "123456789012" "a@x.co" (.httpResp 200 (some [])) .netError
    (by decide)

/-- Demotion preserves the set of emails as seen by the duplicate
check, so the `UNIQUE(email)` test is unaffected by it. -/
theorem demoteByPhone_any_email (p e : String) (db : DB) :
    (demoteByPhone p db).any (fun r => r.email == e) = db.any (fun r => r.email == e) := by
  unfold demoteByPhone
  rw [List.any_map]
  congr 1
  funext r
  simp only [Function.comp_apply, demoteRow_email]

/-- C4 (corrected): the replacement key in the JSON of the service is
`is_replaced`, not `is_replacement`.  Under the guards that let the
insert path run (non-empty fields, length at least 12, no row carrying
the email), a 200 response with `is_replaced = "true"` first demotes
every row with the saved phone and then appends the new verified row,
while any other value of `is_replaced` appends the new verified row
and modifies no existing row. -/
theorem save_replacement_behavior (db : DB) (p e : String) (m : List (String × String))
    (hne : ¬(p = "" ∨ e = "")) (hlen : ¬p.length < 12)
    (hfresh : ∀ r ∈ db, r.email ≠ e) :
    (jsonGet m "is_replaced" = some "true" →
      save_contact db p e (.httpResp 200 (some m)) =
        ⟨demoteByPhone p db ++ [⟨p, e, true⟩], .saved, true⟩) ∧
    (jsonGet m "is_replaced" ≠ some "true" →
      save_contact db p e (.httpResp 200 (some m)) =
        ⟨db ++ [⟨p, e, true⟩], .saved, true⟩) := by
  have hany : db.any (fun r => r.email == e) = false := by
    simp only [List.any_eq_false]
    intro r hr
    simp [hfresh r hr]
  have hany2 : db.any (fun r => r.email == e && r.verified) = false := by
    simp only [List.any_eq_false]
    intro r hr
    simp [hfresh r hr]
  constructor
  · intro hrep
    simp [save_contact, hne, hlen, hany2, hrep, demoteByPhone_any_email, hany]
  · intro hrep
    simp [save_contact, hne, hlen, hany2, hrep, hany]

/-- C4 witness: concrete replacement response demotes the prior row of
the same phone and appends the verified row. -/
theorem save_replacement_witness :
    save_contact [⟨"123456789012", "a@x.co", true⟩] "123456789012" "b@x.co"
        (.httpResp 200 (some [("is_replaced", "true")])) =
      ⟨demoteByPhone "123456789012" [⟨"123456789012", "a@x.co", true⟩] ++
          [⟨"123456789012", "b@x.co", true⟩], SaveOutcome.saved, true⟩ :=
  (save_replacement_behavior [⟨"123456789012", "a@x.co", true⟩] "123456789012" "b@x.co"
      [("is_replaced", "true")] (by decide) (by decide) (by decide)).1 (by decide)

/-- C4 counterexample: a successful response whose replacement field is
spelled `is_replacement` (as the claim and the spec name it) does not
trigger the demotion — the prior verified row with the same phone
stays verified, refuting the claim as stated. -/
theorem save_replacement_key_counterexample :
    (save_contact [⟨"123456789012", "a@x.co", true⟩] "123456789012" "b@x.co"
        (.httpResp 200 (some [("is_replacement", "true")]))).db =
      [⟨"123456789012", "a@x.co", true⟩, ⟨"123456789012", "b@x.co", true⟩] ∧
    (⟨"123456789012", "a@x.co", false⟩ : Row) ∉
      (save_contact [⟨"123456789012", "a@x.co", true⟩] "123456789012" "b@x.co"
        (.httpResp 200 (some [("is_replacement", "true")]))).db := by
  refine ⟨by decide, by decide⟩

/-- A row of a demoted table is an original row or a demoted original
row. -/
theorem mem_demoteByPhone (p : String) (db : DB) (r : Row)
    (hr : r ∈ demoteByPhone p db) :
    r ∈ db ∨ ∃ r0 ∈ db, r = ⟨r0.phone, r0.email, false⟩ := by
  unfold demoteByPhone at hr
  rcases List.mem_map.mp hr with ⟨r0, hr0, hfr⟩
  unfold demoteRow at hfr
  by_cases hp : r0.phone = p
  · rw [if_pos hp] at hfr
    exact Or.inr ⟨r0, hr0, hfr.symm⟩
  · rw [if_neg hp] at hfr
    exact Or.inl (hfr ▸ hr0)

/-- Every row present after a save is an original row, a demoted
original row, or the freshly inserted row — which always carries
`verified = true`. -/
theorem save_row_origin (db : DB) (p e : String) (resp : VerifyResp) (r : Row)
    (hr : r ∈ (save_contact db p e resp).db) :
    r ∈ db ∨ (∃ r0 ∈ db, r = ⟨r0.phone, r0.email, false⟩) ∨ r = ⟨p, e, true⟩ := by
  rcases save_contact_shape db p e resp with ⟨hdb, _⟩ | ⟨hdb, _⟩ | ⟨db1, hdb1, heq, _⟩
  · rw [hdb] at hr
    exact Or.inl hr
  · rw [hdb] at hr
    rcases mem_demoteByPhone p db r hr with h | h
    · exact Or.inl h
    · exact Or.inr (Or.inl h)
  · have hr2 : r ∈ db1 ++ [(⟨p, e, true⟩ : Row)] := by
      rw [heq] at hr
      exact hr
    rcases List.mem_append.mp hr2 with h | h
    · rcases hdb1 with h1 | h1
      · rw [h1] at h
        exact Or.inl h
      · rw [h1] at h
        rcases mem_demoteByPhone p db r h with h2 | h2
        · exact Or.inl h2
        · exact Or.inr (Or.inl h2)
    · rw [List.mem_singleton] at h
      exact Or.inr (Or.inr h)

theorem runSaves_append (ops : List (String × String × VerifyResp))
    (op : String × String × VerifyResp) :
    runSaves (ops ++ [op]) = (save_contact (runSaves ops) op.1 op.2.1 op.2.2).db := by
  unfold runSaves
  rw [List.foldl_append]
  rfl

/-- C10: in a table populated from empty solely through saves, every
insert carries `verified = true`, so an unverified row can only be the
demotion of a row that was verified at some earlier point of the
trace: some prefix of the operations produced the same phone/email row
with `verified = true`. -/
theorem runSaves_unverified_once_verified (ops : List (String × String × VerifyResp))
    (r : Row) (hr : r ∈ runSaves ops) (hv : r.verified = false) :
    ∃ pre suf, ops = pre ++ suf ∧ (⟨r.phone, r.email, true⟩ : Row) ∈ runSaves pre := by
  induction ops using List.reverseRecOn with
  | nil => simp [runSaves] at hr
  | append_singleton ops op ih =>
    rw [runSaves_append] at hr
    rcases save_row_origin _ op.1 op.2.1 op.2.2 r hr with hmem | ⟨r0, hr0, hre⟩ | hnew
    · rcases ih hmem with ⟨pre, suf, hsplit, hpre⟩
      exact ⟨pre, suf ++ [op], by rw [hsplit, List.append_assoc], hpre⟩
    · cases hb : r0.verified with
      | true =>
        refine ⟨ops, [op], rfl, ?_⟩
        have h0 : r0 = ⟨r.phone, r.email, true⟩ := by
          cases r0 with
          | mk a b c =>
            rw [hre]
            simp only at hb ⊢
            rw [hb]
        rw [← h0]
        exact hr0
      | false =>
        have hrr : r = r0 := by
          cases r0 with
          | mk a b c =>
            simp only at hb
            rw [hre, hb]
        rcases ih (hrr ▸ hr0) with ⟨pre, suf, hsplit, hpre⟩
        exact ⟨pre, suf ++ [op], by rw [hsplit, List.append_assoc], hpre⟩
    · rw [hnew] at hv
      simp at hv

/-- C10 witness: the demoted row for `a@x.co` after the two-save trace
was verified after the first save alone. -/
theorem runSaves_unverified_once_verified_witness :
    ∃ pre suf,
      ([("123456789012", "a@x.co", .httpResp 200 (some [])),
        ("123456789012", "b@x.co", .httpResp 200 (some [("is_replaced", "true")]))] :
          List (String × String × VerifyResp)) = pre ++ suf ∧
      (⟨"123456789012", "a@x.co", true⟩ : Row) ∈ runSaves pre :=
  runSaves_unverified_once_verified
    [("123456789012", "a@x.co", .httpResp 200 (some [])),
      ("123456789012", "b@x.co", .httpResp 200 (some [("is_replaced", "true")]))]
    ⟨"123456789012", "a@x.co", false⟩ (by decide) rfl


/-! ### Normalization lemmas -/

theorem count_dropWhile_eq (q : Char → Bool) (c : Char) (hq : q c = false) :
    ∀ l : List Char, (l.dropWhile q).count c = l.count c := by
  intro l
  induction l with
  | nil => rfl
  | cons a l ih =>
    rw [List.dropWhile_cons]
    by_cases ha : q a = true
    · have hca : ¬(c = a) := by
        intro h
        subst h
        rw [hq] at ha
        exact absurd ha (by decide)
      have hac : ¬(a = c) := fun hh => hca hh.symm
      rw [if_pos ha, ih, List.count_cons]
      simp [hca, hac]
    · rw [if_neg ha]

theorem count_pyStrip (c : Char) (hc : isPySpace c = false) (l : List Char) :
    (pyStrip l).count c = l.count c := by
  unfold pyStrip
  rw [List.count_reverse, count_dropWhile_eq _ _ hc, List.count_reverse,
    count_dropWhile_eq _ _ hc]

theorem mem_pyStrip (c : Char) (l : List Char) (h : c ∈ pyStrip l) : c ∈ l := by
  unfold pyStrip at h
  rw [List.mem_reverse] at h
  have h1 := (List.dropWhile_sublist isPySpace).subset h
  rw [List.mem_reverse] at h1
  exact (List.dropWhile_sublist isPySpace).subset h1

/-- C9 (corrected): normalization keeps only digits, whitespace,
hyphens, parentheses and plus signs, but it keeps every `+` wherever
it occurs — the kept class is not restricted to a leading `+`.  A
whitespace-stripped empty residue yields `none`; the under-12
rejection of the stricter variant lives in `save_contact`, which
refuses the pair without any state change or service call; the looser
WhatsApp variant deletes all `+` before filtering, so its results
contain no `+` at all. -/
theorem clean_phone_characterization :
    (∀ s r, clean_phone_number s = some r →
      (∀ c ∈ r.data, keepPhoneChar c = true) ∧
        r.data.count '+' = s.data.count '+') ∧
    (∀ s, (pyStrip s.data).filter keepPhoneChar = [] → clean_phone_number s = none) ∧
    (∀ s r, clean_phone_number_wa s = some r → r.data.count '+' = 0) ∧
    (∀ db p e resp, ¬(p = "" ∨ e = "") → p.length < 12 →
      save_contact db p e resp = ⟨db, .invalidPhone, false⟩) := by
  refine ⟨?_, ?_, ?_, ?_⟩
  · intro s r h
    unfold clean_phone_number at h
    by_cases hs : s = ""
    · rw [if_pos hs] at h
      cases h
    rw [if_neg hs] at h
    by_cases he : (pyStrip s.data).filter keepPhoneChar = []
    · rw [if_pos he] at h
      cases h
    rw [if_neg he, Option.some.injEq] at h
    subst h
    constructor
    · intro c hc
      have h1 := mem_pyStrip c _ hc
      exact (List.mem_filter.mp h1).2
    · have hplus : isPySpace '+' = false := by decide
      have hkeep : keepPhoneChar '+' = true := by decide
      show ((pyStrip ((pyStrip s.data).filter keepPhoneChar))).count '+' = _
      rw [count_pyStrip _ hplus, List.count_filter hkeep, count_pyStrip _ hplus]
  · intro s h
    unfold clean_phone_number
    by_cases hs : s = ""
    · rw [if_pos hs]
    · rw [if_neg hs, if_pos h]
  · intro s r h
    unfold clean_phone_number_wa at h
    by_cases he : (((pyStrip s.data).filter (fun c => c ≠ '~')).filter
        (fun c => c ≠ '+')).filter keepPhoneChar = []
    · rw [if_pos he] at h
      cases h
    rw [if_neg he, Option.some.injEq] at h
    subst h
    have hplus : isPySpace '+' = false := by decide
    have hkeep : keepPhoneChar '+' = true := by decide
    show ((pyStrip ((((pyStrip s.data).filter (fun c => c ≠ '~')).filter
        (fun c => c ≠ '+')).filter keepPhoneChar))).count '+' = 0
    rw [count_pyStrip _ hplus, List.count_filter hkeep, List.count_eq_zero]
    intro hmem
    have := (List.mem_filter.mp hmem).2
    simp at this
  · intro db p e resp h1 h2
    simp [save_contact, h1, h2]

/-- C9 witness: on `" 1+2 "` the cleaned result `"1+2"` contains only
kept characters and retains its interior plus sign. -/
theorem clean_phone_characterization_witness :
    (∀ c ∈ ("1+2" : String).data, keepPhoneChar c = true) ∧
      ("1+2" : String).data.count '+' = (" 1+2 " : String).data.count '+' :=
  clean_phone_characterization.1 " 1+2 " "1+2" (by decide)

/-- C9 counterexample: a `+` that is not leading survives cleaning, so
the claimed "a plus anywhere else is stripped" behavior (which would
give `"12"`) is refuted. -/
theorem clean_phone_plus_counterexample :
    clean_phone_number "1+2" = some "1+2" ∧ clean_phone_number "1+2" ≠ some "12" := by
  refine ⟨by decide, by decide⟩


/-! ### Scan-loop lemmas -/

/-- The grown processed set is the old one plus the collected names,
in order. -/
theorem collectNew_seen (items : List ChatItem) :
    ∀ seen, (collectNew items seen).2 =
      seen ++ ((collectNew items seen).1.map ChatItem.name) := by
  induction items with
  | nil => intro seen; simp [collectNew]
  | cons it rest ih =>
    intro seen
    by_cases hc : (it.name ≠ "Unknown" && !(seen.contains it.name)) = true
    · rw [collectNew, if_pos hc]
      simp only [List.map_cons]
      rw [ih (seen ++ [it.name])]
      simp
    · rw [collectNew, if_neg hc]
      exact ih seen

/-- Collected names are pairwise distinct and disjoint from the
incoming processed set. -/
theorem collectNew_fresh (items : List ChatItem) :
    ∀ seen, ((collectNew items seen).1.map ChatItem.name).Nodup ∧
      ∀ n ∈ (collectNew items seen).1.map ChatItem.name, n ∉ seen := by
  induction items with
  | nil =>
    intro seen
    exact ⟨List.nodup_nil, by simp [collectNew]⟩
  | cons it rest ih =>
    intro seen
    by_cases hc : (it.name ≠ "Unknown" && !(seen.contains it.name)) = true
    · rw [collectNew, if_pos hc]
      have hnotmem : it.name ∉ seen := by
        have hc2 := hc
        simp at hc2
        exact hc2.2
      rcases ih (seen ++ [it.name]) with ⟨hnd, hdisj⟩
      simp only [List.map_cons]
      constructor
      · rw [List.nodup_cons]
        refine ⟨?_, hnd⟩
        intro hmem
        exact hdisj it.name hmem (by simp)
      · intro n hn
        rw [List.mem_cons] at hn
        rcases hn with h | h
        · rw [h]; exact hnotmem
        · intro hmem
          exact hdisj n h (by simp [hmem])
    · rw [collectNew, if_neg hc]
      exact ih seen

/-- The attempt log grows by a prefix-shaped sublist of the batch
names (the inner loop may break at the processed ceiling). -/
theorem processItems_opened (items : List ChatItem) :
    ∀ total opened, ∃ l, (processItems items total opened).2 = opened ++ l ∧
      l.Sublist (items.map ChatItem.name) := by
  induction items with
  | nil =>
    intro total opened
    exact ⟨[], by simp [processItems], List.nil_sublist _⟩
  | cons it rest ih =>
    intro total opened
    rw [processItems]
    by_cases hc : it.counted = true
    · rw [if_pos hc]
      by_cases h20 : 20 ≤ total + 1
      · rw [if_pos h20]
        refine ⟨[it.name], by simp, ?_⟩
        simp only [List.map_cons]
        exact (List.nil_sublist _).cons₂ it.name
      · rw [if_neg h20]
        rcases ih (total + 1) (opened ++ [it.name]) with ⟨l, hl, hs⟩
        refine ⟨it.name :: l, ?_, ?_⟩
        · rw [hl]; simp
        · simp only [List.map_cons]
          exact hs.cons₂ it.name
    · rw [if_neg hc]
      rcases ih total (opened ++ [it.name]) with ⟨l, hl, hs⟩
      refine ⟨it.name :: l, ?_, ?_⟩
      · rw [hl]; simp
      · simp only [List.map_cons]
        exact hs.cons₂ it.name

/-- The invariant of the scan loop: the log of attempted chats has no
duplicate and every attempted name sits in the processed set. -/
def scanInv (st : ScanState) : Prop :=
  st.opened.Nodup ∧ ∀ n ∈ st.opened, n ∈ st.processed

theorem loopGo_scanInv (batches : Nat → List ChatItem) :
    ∀ fuel st, scanInv st → scanInv (loopGo batches fuel st) := by
  intro fuel
  induction fuel with
  | zero => intro st h; exact h
  | succ fuel ih =>
    intro st h
    rw [loopGo]
    by_cases h1 : 3 ≤ st.noNew
    · rw [if_pos h1]; exact h
    rw [if_neg h1]
    by_cases h2 : 20 ≤ st.total
    · rw [if_pos h2]; exact h
    rw [if_neg h2]
    by_cases h3 : batches st.batch = []
    · rw [if_pos h3]
      exact ih _ h
    rw [if_neg h3]
    by_cases h4 : (collectNew (batches st.batch) st.processed).1 = []
    · rw [if_pos h4]
      refine ih _ ⟨h.1, ?_⟩
      intro n hn
      rw [collectNew_seen]
      exact List.mem_append_left _ (h.2 n hn)
    rw [if_neg h4]
    have hst1 : scanInv
        ⟨(collectNew (batches st.batch) st.processed).2,
          (processItems (collectNew (batches st.batch) st.processed).1 st.total
            st.opened).1,
          st.batch + 1, 0,
          (processItems (collectNew (batches st.batch) st.processed).1 st.total
            st.opened).2⟩ := by
      rcases processItems_opened (collectNew (batches st.batch) st.processed).1
          st.total st.opened with ⟨l, hl, hs⟩
      rcases collectNew_fresh (batches st.batch) st.processed with ⟨hnd, hdisj⟩
      constructor
      · show ((processItems (collectNew (batches st.batch) st.processed).1 st.total
            st.opened).2).Nodup
        rw [hl, List.nodup_append]
        refine ⟨h.1, hs.nodup hnd, ?_⟩
        intro n hn hnl
        exact hdisj n (hs.subset hnl) (h.2 n hn)
      · show ∀ n ∈ (processItems (collectNew (batches st.batch) st.processed).1 st.total
            st.opened).2, n ∈ (collectNew (batches st.batch) st.processed).2
        intro n hn
        rw [hl, List.mem_append] at hn
        rw [collectNew_seen]
        rcases hn with hn | hn
        · exact List.mem_append_left _ (h.2 n hn)
        · exact List.mem_append_right _ (hs.subset hn)
    by_cases h5 : st.batch + 1 < 100
    · rw [if_pos h5]
      exact ih _ hst1
    · rw [if_neg h5]
      exact hst1

/-- C8: within one scan no chat name is ever attempted twice — the log
of attempted chats of the whole run is duplicate-free, for every
sequence of discovery batches, overlapping or not, and regardless of
per-chat outcomes. -/
theorem scan_no_chat_reprocessed (batches : Nat → List ChatItem) :
    (loopRun batches initScan).opened.Nodup :=
  (loopGo_scanInv batches (loopMeasure initScan) initScan
    ⟨List.nodup_nil, by simp [initScan]⟩).1

theorem loopGo_final_condition (batches : Nat → List ChatItem) :
    ∀ fuel st, loopMeasure st ≤ fuel →
      3 ≤ (loopGo batches fuel st).noNew ∨ 20 ≤ (loopGo batches fuel st).total ∨
        100 ≤ (loopGo batches fuel st).batch := by
  intro fuel
  induction fuel with
  | zero =>
    intro st hm
    left
    unfold loopMeasure at hm
    simp only [loopGo]
    omega
  | succ fuel ih =>
    intro st hm
    rw [loopGo]
    by_cases h1 : 3 ≤ st.noNew
    · rw [if_pos h1]; exact Or.inl h1
    rw [if_neg h1]
    by_cases h2 : 20 ≤ st.total
    · rw [if_pos h2]; exact Or.inr (Or.inl h2)
    rw [if_neg h2]
    by_cases h3 : batches st.batch = []
    · rw [if_pos h3]
      refine ih _ ?_
      unfold loopMeasure at hm ⊢
      simp only
      omega
    rw [if_neg h3]
    by_cases h4 : (collectNew (batches st.batch) st.processed).1 = []
    · rw [if_pos h4]
      refine ih _ ?_
      unfold loopMeasure at hm ⊢
      simp only
      omega
    rw [if_neg h4]
    by_cases h5 : st.batch + 1 < 100
    · rw [if_pos h5]
      refine ih _ ?_
      unfold loopMeasure at hm ⊢
      simp only
      omega
    · rw [if_neg h5]
      right; right
      simp only
      omega

/-- C7 (corrected): the scan loop always terminates (`loopRun` is a
total function), and when it stops the final state satisfies one of
three conditions: three consecutive batches brought nothing new
(`noNew` reached 3), the processed-chat count reached 20, or the
hard safety cap of 100 batches was hit — the third stop condition is
absent from the claim. -/
theorem scan_termination_conditions (batches : Nat → List ChatItem) :
    3 ≤ (loopRun batches initScan).noNew ∨ 20 ≤ (loopRun batches initScan).total ∨
      100 ≤ (loopRun batches initScan).batch :=
  loopGo_final_condition batches (loopMeasure initScan) initScan (Nat.le_refl _)

/-- C7 counterexample: when every batch exposes exactly one fresh chat
that yields no messages, the loop stops after 100 batches with zero
processed chats and a zero no-new streak — neither of the two stop
conditions of the claim holds at termination. -/
theorem scan_termination_cap_counterexample :
    ¬(3 ≤ (loopRun cexBatches initScan).noNew ∨
        20 ≤ (loopRun cexBatches initScan).total) ∧
      (loopRun cexBatches initScan).batch = 100 := by
  refine ⟨by decide, by decide⟩


end WhatsAppExtract
